import Mathlib

/-!
Shallow embedding of the ingestion pipeline of the Nong-Mo backend:
the TTS text splitter (`app/utils/tts_util.py`), the perspective
rectifier and the image-ingestion orchestrator
(`app/services/image_services.py`), and the PDF metadata writer
(`app/services/storage_service.py`).  External collaborators (MongoDB,
S3, the OCR and TTS HTTP services, OpenCV) are abstracted as an
environment of oracles; every control-flow decision and every state
mutation of the Python source is reproduced by the definitions below.
-/

namespace Ingest

/-! ## TTSUtil._split_text (app/utils/tts_util.py, lines 36-72)

Text is a list of characters (Python `str` indexing is by code point). -/

def terminators : List Char := ['.', '!', '?']

/-- The set of characters Python `str.strip()` removes (code points for
which `Py_UNICODE_ISSPACE` holds): 0x09-0x0D, 0x1C-0x1F, space, NEL
(0x85), NBSP (0xA0), and the Unicode space separators 0x1680,
0x2000-0x200A, 0x2028, 0x2029, 0x202F, 0x205F, 0x3000. -/
def pyWhitespace (c : Char) : Bool :=
  (9 ≤ c.toNat && c.toNat ≤ 13) || (28 ≤ c.toNat && c.toNat ≤ 31) ||
  c.toNat == 32 || c.toNat == 133 || c.toNat == 160 || c.toNat == 5760 ||
  (8192 ≤ c.toNat && c.toNat ≤ 8202) || c.toNat == 8232 || c.toNat == 8233 ||
  c.toNat == 8239 || c.toNat == 8287 || c.toNat == 12288

/-- Python `str.strip()`: remove leading and trailing whitespace. -/
def strip (l : List Char) : List Char :=
  ((l.dropWhile pyWhitespace).reverse.dropWhile pyWhitespace).reverse

/-- The inner `while split_pos > max_length // 2` scan of `_split_text`:
starting at `pos`, step downward while the position is above `half`;
on a sentence terminator return `pos + 1` (cut after it), otherwise the
loop exits with the position equal to `half`. -/
def scanBack (text : List Char) (half : Nat) : Nat → Nat
  | 0 => 0
  | pos + 1 =>
    if pos + 1 ≤ half then pos + 1
    else if text.getD (pos + 1) ' ' ∈ terminators then pos + 2
    else scanBack text half pos

/-- The `while text:` loop of `_split_text`.  `fuel` bounds the number of
iterations; `text.length` suffices whenever `maxLength ≥ 1` because every
iteration removes at least one character (with `maxLength = 0` the Python
loop never terminates on non-whitespace text). -/
def splitGo (maxLength : Nat) : Nat → List Char → List (List Char)
  | 0, _ => []
  | fuel + 1, text =>
    if text = [] then []
    else if text.length ≤ maxLength then [text]
    else
      let sp0 := scanBack text (maxLength / 2) maxLength
      let sp := if sp0 ≤ maxLength / 2 then maxLength else sp0
      text.take sp :: splitGo maxLength fuel (strip (text.drop sp))

/-- `TTSUtil._split_text(text, max_length)`: the leading
`if len(text) <= max_length: return [text]` short-circuit followed by the
chunking loop. -/
def splitText (maxLength : Nat) (text : List Char) : List (List Char) :=
  if text.length ≤ maxLength then [text]
  else splitGo maxLength text.length text

/-! ## TTSUtil._combine_mp3_files (app/utils/tts_util.py, lines 111-160)

The method writes each audio binary to `/tmp/audio_combine/temp_<i>.mp3`
(a path that does not depend on the batch), concatenates them, and
removes the temporary files only at the end of the `try` block; the
`except` handler re-raises without removing anything.  The model records
which temporary files are left on disk at exit: on success everything
written has been removed, on a failed write the files written so far
remain. -/

def audioCombineDir : String := "/tmp/audio_combine"

def combineTempPath (i : Nat) : String :=
  audioCombineDir ++ "/temp_" ++ toString i ++ ".mp3"

/-- The write loop of `_combine_mp3_files` over `k` remaining binaries
starting at index `start`; `written` is what is already on disk.  Returns
(success flag, temporary files left on disk at exit). -/
def combineGo (writeOk : Nat → Bool) : Nat → Nat → List String → Bool × List String
  | start, k + 1, written =>
    if writeOk start then combineGo writeOk (start + 1) k (written ++ [combineTempPath start])
    else (false, written)
  | _, 0, _ => (true, [])

/-- `_combine_mp3_files` on `n` audio binaries, with `writeOk i` telling
whether writing the `i`-th temporary file succeeds: on success all
temporary files (and the combined output) are removed; on a failure the
files already written stay on disk. -/
def combineMp3Run (writeOk : Nat → Bool) (n : Nat) : Bool × List String :=
  combineGo writeOk 0 n []

/-! ## Data model of the ingestion pipeline
(app/services/image_services.py, app/services/storage_service.py)

Bytes are abstract byte lists; a vertex (`{"x": float, "y": float}`) is a
pair of rational coordinates.  The environment `Env` fixes the outcome of
every external collaborator: the MongoDB lookups, the OpenCV decode /
warp / encode calls, the OCR and TTS HTTP services, and the two metadata
inserts.  The `$inc` counter updates themselves are MongoDB atomic
operations and are modelled as always succeeding once the storage
document was found. -/

abbrev Bytes := List Nat

deriving instance DecidableEq for Except

structure Pt where
  x : Rat
  y : Rat
deriving DecidableEq

/-- Errors raised inside the `try` block of `process_images`; every one of
them is caught by the blanket `except Exception` handler and re-surfaced
as `HTTPException(500, "An unexpected error occurred: ...")`.
`geometryError` is the spec's `GeometryError` (spec §7); it is included so
that "the code never raises it" is statable — no code path produces it. -/
inductive InnerErr where
  | storageNotFound
  | emptyFile
  | badQuadCount
  | invalidImageData
  | warpFailed
  | encodeFailed
  | fileSizeOutOfRange
  | ocrFailed
  | ttsFailed
  | insertFailed
  | pdfFailed
  | geometryError
deriving DecidableEq

/-- Errors surfaced by `process_images`: the two raised before the `try`
block keep their own HTTP status (400 / 404); everything raised inside
the `try` block is wrapped into a generic HTTP 500. -/
inductive PErr where
  | invalidStorageName
  | userNotFound
  | unexpected (e : InnerErr)
deriving DecidableEq

structure Env where
  userFound : Bool
  storageFound : Bool
  count0 : Int
  batchId : String
  decodeOk : Bytes → Bool
  warpOk : Bytes → List Pt → Bool
  warped : Bytes → List Pt → Bytes
  encodeOk : Bytes → Bool
  ocrOk : Bytes → Bool
  ocrTexts : Bytes → List String
  ttsOk : Bool
  insertOk : Bool
  pdfOk : Bool

structure PageIn where
  filename : String
  content : Bytes
deriving DecidableEq

/-- A document inserted into the `files` collection.  `id` is the insert
order within the batch (standing in for the MongoDB object id returned by
`insert_one`). -/
structure FileRecord where
  id : Nat
  isPrimary : Bool
  primaryFileId : Option Nat
  mimeType : String
  title : String
deriving DecidableEq

def ALLOWED_STORAGE_NAMES : List String :=
  ["책", "영수증", "굿즈", "필름 사진", "서류", "티켓"]

def MAX_FILE_SIZE : Nat := 10 * 1024 * 1024

def MIN_FILE_SIZE : Nat := 1

/-- `upload_dir = f"/tmp/{user_id}/{file_id}"` where `file_id` is the
batch's fresh uuid. -/
def uploadDir (userId batchId : String) : String :=
  "/tmp/" ++ userId ++ "/" ++ batchId

/-- The MP3 metadata document built in `process_images` (is_primary =
True, mime audio/mp3), inserted first, hence id 0. -/
def primRec (title : String) : FileRecord :=
  ⟨0, true, none, "audio/mp3", title⟩

/-- The PDF metadata document built in `StorageService.create_pdf_from_images`
(is_primary = False, primary_file_id = the MP3's id), inserted second. -/
def derivRec (title : String) : FileRecord :=
  ⟨1, false, some 0, "application/pdf", title⟩

/-- `ImageService.transform_image`: exactly-4-vertices check, then image
decode, then the perspective warp and JPEG re-encode (the OpenCV calls are
environment oracles; their geometry is modelled separately below).  Note
there is no degeneracy check between decode and warp. -/
def transformImage (env : Env) (content : Bytes) (vs : List Pt) : Except InnerErr Bytes :=
  if vs.length ≠ 4 then .error .badQuadCount
  else if env.decodeOk content = false then .error .invalidImageData
  else if env.warpOk content vs = false then .error .warpFailed
  else if env.encodeOk (env.warped content vs) = false then .error .encodeFailed
  else .ok (env.warped content vs)

/-- `ImageService._call_clova_ocr`: re-reads the upload from the start,
rejects sizes outside [MIN_FILE_SIZE, MAX_FILE_SIZE] without calling the
service, then issues the HTTP call.  Returns (requests issued, result). -/
def callClovaOcr (env : Env) (content : Bytes) : List Bytes × Except InnerErr (List String) :=
  if content.length < MIN_FILE_SIZE ∨ MAX_FILE_SIZE < content.length then
    ([], .error .fileSizeOutOfRange)
  else if env.ocrOk content = false then ([content], .error .ocrFailed)
  else ([content], .ok (env.ocrTexts content))

/-- State accumulated by the `for idx, file in enumerate(files)` loop of
`process_images`: temp-file paths, the bytes written to them (these feed
the PDF), the OCR text fragments, the OCR requests issued, and the first
exception if any. -/
structure LoopSt where
  paths : List String
  saved : List Bytes
  texts : List String
  ocrCalls : List Bytes
  err : Option InnerErr
deriving DecidableEq

/-- The body of one iteration of the `for idx, file in enumerate(files)`
loop up to the temp-file write: empty-content check, then the optional
perspective transform (only when this index has vertices); returns the
bytes that will be written to `upload_dir/<filename>`. -/
def pageStep (env : Env) (page : PageIn) (ov : Option (List Pt)) : Except InnerErr Bytes :=
  if page.content = [] then .error .emptyFile
  else
    match ov with
    | some vs => transformImage env page.content vs
    | none => .ok page.content

/-- The per-page loop of `process_images`: for each page, `pageStep`,
write the resulting bytes to `upload_dir/<filename>`, then OCR the
re-read *original* upload (`file.file.seek(0)` before `_call_clova_ocr`).
An exception stops the loop. -/
def pageLoop (env : Env) (dir : String) : List (PageIn × Option (List Pt)) → LoopSt
  | [] => ⟨[], [], [], [], none⟩
  | (page, ov) :: rest =>
    match pageStep env page ov with
    | .error e => ⟨[], [], [], [], some e⟩
    | .ok content =>
      let path := dir ++ "/" ++ page.filename
      let pr := callClovaOcr env page.content
      match pr.2 with
      | .error e => ⟨[path], [content], [], pr.1, some e⟩
      | .ok ts =>
        let stRest := pageLoop env dir rest
        ⟨path :: stRest.paths, content :: stRest.saved, ts ++ stRest.texts,
          pr.1 ++ stRest.ocrCalls, stRest.err⟩

/-- The bytes the loop writes to the temp file for one page: the warp
output when this index has vertices, the original upload otherwise.
(These are the bytes that later feed `create_pdf_from_images`.) -/
def savedOf (env : Env) (it : PageIn × Option (List Pt)) : Bytes :=
  match it.2 with
  | some vs => env.warped it.1.content vs
  | none => it.1.content

/-- `vertices_data[idx]` access: `if vertices_data and len(vertices_data) > idx
and vertices_data[idx] is not None` — entries beyond the list (and a
missing / empty list) mean "no transform". -/
def vdPad (pages : List PageIn) (vd : List (Option (List Pt))) : List (Option (List Pt)) :=
  (List.range pages.length).map fun i => vd.getD i none

/-- Everything observable about one `process_images` call: its return
value or error, the `$inc` deltas applied to the destination storage
document in order, the resulting `file_count`, the `files`-collection
documents inserted, the TTS and OCR requests issued, the files written
under the upload directory and the bytes they hold, and the directories
recursively removed on exit. -/
structure RunOut where
  outcome : Except PErr Nat
  ledgerOps : List Int
  countAfter : Int
  records : List FileRecord
  ttsCalls : List String
  ocrCalls : List Bytes
  tmpFiles : List String
  saved : List Bytes
  removedDirs : List String

/-- The part of `process_images` from the end of the per-page loop to the
function's exit, given the loop state `st`: if the loop raised, the
`except` handler decrements the counter and wraps the error; otherwise
`" ".join(combined_text)`, one TTS call on the joined text, the primary
MP3 metadata insert, and (when any image was written) the PDF creation
inserting the non-primary document referencing the MP3.  Every failure
here happens with `storage_id` set, so the handler's compensating
decrement runs; the `finally` block removes the upload directory on every
path. -/
def afterLoop (env : Env) (title dir : String) (st : LoopSt) : RunOut :=
  match st.err with
  | some e =>
    ⟨.error (.unexpected e), [1, -1], env.count0, [], [],
      st.ocrCalls, st.paths, st.saved, [dir]⟩
  | none =>
    let finalText := String.intercalate " " st.texts
    if env.ttsOk = false then
      ⟨.error (.unexpected .ttsFailed), [1, -1], env.count0, [], [finalText],
        st.ocrCalls, st.paths, st.saved, [dir]⟩
    else if env.insertOk = false then
      ⟨.error (.unexpected .insertFailed), [1, -1], env.count0, [], [finalText],
        st.ocrCalls, st.paths, st.saved, [dir]⟩
    else if st.paths.isEmpty = false then
      if env.pdfOk = false then
        ⟨.error (.unexpected .pdfFailed), [1, -1], env.count0, [primRec title], [finalText],
          st.ocrCalls, st.paths, st.saved, [dir]⟩
      else
        ⟨.ok 0, [1], env.count0 + 1, [primRec title, derivRec title], [finalText],
          st.ocrCalls, st.paths, st.saved, [dir]⟩
    else
      ⟨.ok 0, [1], env.count0 + 1, [primRec title], [finalText],
        st.ocrCalls, st.paths, st.saved, [dir]⟩

/-- `ImageService.process_images`.  Control flow of the source: allowed
storage-name check and user lookup (both before the `try` block and before
the upload directory exists); then inside `try`: `update_storage_count`
(find the storage document, 404 if absent, then atomically `$inc
file_count` by +1), the per-page loop, and the post-loop stage
(`afterLoop`).  The `except Exception` handler decrements the counter by 1
iff `storage_id` was set, then re-raises a generic 500; the `finally`
block always removes the upload directory. -/
def processImages (env : Env) (storageName title userId : String)
    (pages : List PageIn) (vd : List (Option (List Pt))) : RunOut :=
  if ALLOWED_STORAGE_NAMES.contains storageName = false then
    ⟨.error .invalidStorageName, [], env.count0, [], [], [], [], [], []⟩
  else if env.userFound = false then
    ⟨.error .userNotFound, [], env.count0, [], [], [], [], [], []⟩
  else
    let dir := uploadDir userId env.batchId
    if env.storageFound = false then
      ⟨.error (.unexpected .storageNotFound), [], env.count0, [], [], [], [], [], [dir]⟩
    else
      afterLoop env title dir (pageLoop env dir (pages.zip (vdPad pages vd)))

/-! ## Rectifier geometry (app/services/image_services.py, lines 145-172)

`transform_image` computes, over the four vertices
`p0..p3` (top-left, top-right, bottom-right, bottom-left):

    width  = max(norm(p1 - p0), norm(p2 - p3))
    height = max(norm(p3 - p0), norm(p2 - p1))

and passes `(int(width), int(height))` as the output size of
`cv2.warpPerspective`.  Floating-point arithmetic is modelled by exact
real arithmetic; Python `int()` truncates toward zero, which on these
non-negative norms is the floor. -/

structure Quad4 where
  p0 : Pt
  p1 : Pt
  p2 : Pt
  p3 : Pt

/-- Euclidean distance `np.linalg.norm(a - b)` of two vertices. -/
noncomputable def distR (a b : Pt) : ℝ :=
  Real.sqrt (((a.x - b.x : Rat) : ℝ) ^ 2 + ((a.y - b.y : Rat) : ℝ) ^ 2)

/-- `width = max(norm(src_points[1] - src_points[0]), norm(src_points[2] - src_points[3]))`. -/
noncomputable def widthR (q : Quad4) : ℝ :=
  max (distR q.p1 q.p0) (distR q.p2 q.p3)

/-- `height = max(norm(src_points[3] - src_points[0]), norm(src_points[2] - src_points[1]))`. -/
noncomputable def heightR (q : Quad4) : ℝ :=
  max (distR q.p3 q.p0) (distR q.p2 q.p1)

/-- The pixel width `int(width)` handed to `cv2.warpPerspective`. -/
noncomputable def outW (q : Quad4) : ℤ := ⌊widthR q⌋

/-- The pixel height `int(height)` handed to `cv2.warpPerspective`. -/
noncomputable def outH (q : Quad4) : ℤ := ⌊heightR q⌋

def quad4of (vs : List Pt) : Quad4 :=
  ⟨vs.getD 0 ⟨0, 0⟩, vs.getD 1 ⟨0, 0⟩, vs.getD 2 ⟨0, 0⟩, vs.getD 3 ⟨0, 0⟩⟩

/-- How far `transform_image` gets before the OpenCV warp: either one of
its own two checks fails (vertex count, image decode), or it reaches the
`cv2.warpPerspective` call with the computed output size.  There is no
check of any kind between the decode and the warp. -/
inductive TransformStep where
  | fail (e : InnerErr)
  | warp (w h : ℤ)

noncomputable def transformTrace (decodeOk : Bool) (vs : List Pt) : TransformStep :=
  if vs.length ≠ 4 then .fail .badQuadCount
  else if decodeOk = false then .fail .invalidImageData
  else .warp (outW (quad4of vs)) (outH (quad4of vs))

/-- The all-zero (fully degenerate) quad. -/
def zeroQuad : List Pt := [⟨0, 0⟩, ⟨0, 0⟩, ⟨0, 0⟩, ⟨0, 0⟩]

/-! ## Concrete environments and inputs used to evaluate the model -/

/-- An environment in which every external collaborator succeeds. -/
def envA : Env :=
  { userFound := true, storageFound := true, count0 := 5, batchId := "b1",
    decodeOk := fun _ => true, warpOk := fun _ _ => true,
    warped := fun b _ => 7 :: b, encodeOk := fun _ => true,
    ocrOk := fun _ => true, ocrTexts := fun _ => ["hello"],
    ttsOk := true, insertOk := true, pdfOk := true }

/-- Like `envA` but the TTS HTTP call fails. -/
def envTtsFail : Env :=
  { envA with ttsOk := false }

def pageA : PageIn := ⟨"a.jpg", [1, 2]⟩

/-- A quad with only three points. -/
def quad3 : List Pt := [⟨0, 0⟩, ⟨1, 0⟩, ⟨1, 1⟩]

/-- A well-formed four-point quad. -/
def quad4c : List Pt := [⟨0, 0⟩, ⟨1, 0⟩, ⟨1, 1⟩, ⟨0, 1⟩]

/-! ## Lemmas about the text splitter -/

theorem dropWhile_eq_self_of_no_ws (l : List Char)
    (h : ∀ c ∈ l, pyWhitespace c = false) :
    l.dropWhile pyWhitespace = l := by
  cases l with
  | nil => rfl
  | cons a t =>
    have ha : pyWhitespace a = false := h a (List.mem_cons_self a t)
    simp [List.dropWhile_cons, ha]

theorem strip_eq_self_of_no_ws (l : List Char)
    (h : ∀ c ∈ l, pyWhitespace c = false) :
    strip l = l := by
  unfold strip
  rw [dropWhile_eq_self_of_no_ws l h,
    dropWhile_eq_self_of_no_ws l.reverse (fun c hc => h c (List.mem_reverse.mp hc)),
    List.reverse_reverse]

theorem scanBack_le_succ (text : List Char) (half : Nat) :
    ∀ pos, scanBack text half pos ≤ pos + 1 := by
  intro pos
  induction pos with
  | zero => simp [scanBack]
  | succ p ih =>
    unfold scanBack
    split
    · omega
    · split
      · omega
      · exact Nat.le_succ_of_le ih

theorem splitGo_join_of_no_ws (n : Nat) (hn : 1 ≤ n) :
    ∀ fuel text, text.length ≤ fuel → (∀ c ∈ text, pyWhitespace c = false) →
      (splitGo n fuel text).flatten = text := by
  intro fuel
  induction fuel with
  | zero =>
    intro text hlen _
    have : text = [] := List.eq_nil_of_length_eq_zero (Nat.le_zero.mp hlen)
    subst this
    simp [splitGo]
  | succ f ih =>
    intro text hlen hws
    unfold splitGo
    split
    · simp [*]
    · split
      · simp
      · rename_i hne hlong
        simp only [List.flatten_cons]
        set sp0 := scanBack text (n / 2) n with hsp0
        set sp := if sp0 ≤ n / 2 then n else sp0 with hsp
        have hsp1 : 1 ≤ sp := by
          rw [hsp]
          split
          · exact hn
          · omega
        have hstrip : strip (text.drop sp) = text.drop sp :=
          strip_eq_self_of_no_ws _ (fun c hc => hws c (List.mem_of_mem_drop hc))
        rw [hstrip]
        rw [ih (text.drop sp) (by simp [List.length_drop]; omega)
          (fun c hc => hws c (List.mem_of_mem_drop hc))]
        exact List.take_append_drop sp text

/-- C1: the claim as stated is false — concatenating the chunks does not
reproduce the original text: `_split_text` strips whitespace off each
remainder (`text = text[split_pos:].strip()`), so the space after the cut
in `"abc. efg"` (MAX_CHUNK = 4) is dropped. -/
theorem splitText_roundtrip_cex :
    (splitText 4 ("abc. efg".toList)).flatten ≠ "abc. efg".toList := by
  decide

/-- C1 (amended): concatenating the chunks in order reproduces the
original text exactly for every text that contains no character of
Python's `str.strip()` whitespace set (and MAX_CHUNK ≥ 1); in general the
whitespace stripped off the remainder at each cut point is lost. -/
theorem splitText_join_of_no_ws (n : Nat) (text : List Char) (hn : 1 ≤ n)
    (hws : ∀ c ∈ text, pyWhitespace c = false) :
    (splitText n text).flatten = text := by
  unfold splitText
  split
  · simp
  · exact splitGo_join_of_no_ws n hn text.length text le_rfl hws

theorem splitText_join_of_no_ws_witness :
    (1 ≤ 4 ∧ ∀ c ∈ "ab.cdef".toList, pyWhitespace c = false) ∧
      (splitText 4 ("ab.cdef".toList)).flatten = "ab.cdef".toList :=
  ⟨⟨by decide, by decide⟩,
    splitText_join_of_no_ws 4 ("ab.cdef".toList) (by decide) (by decide)⟩

theorem splitGo_chunk_le (n : Nat) :
    ∀ fuel text c, c ∈ splitGo n fuel text → c.length ≤ n + 1 := by
  intro fuel
  induction fuel with
  | zero => intro text c hc; simp [splitGo] at hc
  | succ f ih =>
    intro text c hc
    unfold splitGo at hc
    split at hc
    · simp at hc
    · split at hc
      · rename_i hlen
        rw [List.mem_singleton] at hc
        subst hc
        omega
      · rw [List.mem_cons] at hc
        rcases hc with hc | hc
        · subst hc
          have h0 : scanBack text (n / 2) n ≤ n + 1 := scanBack_le_succ text (n / 2) n
          have : (if scanBack text (n / 2) n ≤ n / 2 then n
              else scanBack text (n / 2) n) ≤ n + 1 := by
            split <;> omega
          calc (text.take _).length ≤ _ := by
                rw [List.length_take]; exact min_le_left _ _
            _ ≤ n + 1 := this
        · exact ih _ c hc

/-- C4: the claim as stated is false — a chunk can exceed MAX_CHUNK even
though a sentence terminator was found: the backward scan starts at index
MAX_CHUNK itself, and cutting after a terminator found there yields a
chunk of MAX_CHUNK + 1 characters ("abcd." has 5 > 4). -/
theorem splitText_chunk_le_cex :
    ¬ ∀ c ∈ splitText 4 ("abcd.xyz".toList), c.length ≤ 4 := by
  decide

/-- C4 (amended): every chunk produced by the splitter has length at most
MAX_CHUNK + 1 (the extra character arises exactly when a sentence
terminator sits at scan-start index MAX_CHUNK and the cut lands after it;
a hard cut yields MAX_CHUNK). -/
theorem splitText_chunk_le (n : Nat) (text : List Char) (c : List Char)
    (hc : c ∈ splitText n text) : c.length ≤ n + 1 := by
  unfold splitText at hc
  split at hc
  · rw [List.mem_singleton] at hc
    subst hc
    omega
  · exact splitGo_chunk_le n text.length text c hc

theorem splitText_chunk_le_witness :
    ("abcd.".toList ∈ splitText 4 ("abcd.xyz".toList)) ∧
      ("abcd.".toList).length ≤ 4 + 1 :=
  ⟨by decide, splitText_chunk_le 4 ("abcd.xyz".toList) ("abcd.".toList) (by decide)⟩

/-! ## Rectifier geometry theorems -/

theorem floor_close_to_round (x : ℝ) : (⌊x⌋ - round x).natAbs ≤ 1 := by
  have h1 : ⌊x⌋ ≤ round x := by
    rw [round_eq]
    exact Int.floor_mono (by linarith)
  have h2 : round x ≤ ⌊x⌋ + 1 := by
    rw [round_eq]
    calc ⌊x + 1 / 2⌋ ≤ ⌊x + 1⌋ := Int.floor_mono (by linarith)
      _ = ⌊x⌋ + 1 := Int.floor_add_one x
  omega

/-- C5: for every 4-point quad, the output width `int(width)` handed to
`cv2.warpPerspective` is within one pixel of `round(max(|p0-p1|, |p3-p2|))`,
and the output height within one pixel of `round(max(|p0-p3|, |p1-p2|))`
(the code truncates where the claim rounds, a discrepancy of at most one). -/
theorem transform_dims_within_one (q : Quad4) :
    (outW q - round (widthR q)).natAbs ≤ 1 ∧
      (outH q - round (heightR q)).natAbs ≤ 1 :=
  ⟨floor_close_to_round (widthR q), floor_close_to_round (heightR q)⟩

theorem distR_self (a : Pt) : distR a a = 0 := by
  simp [distR]

/-- C6: the claim as stated is false — the fully degenerate all-zero quad
has computed width and height 0 (≤ 0), yet `transform_image` does not fail
with `GeometryError` (no such error exists in the code): it proceeds
straight to the `cv2.warpPerspective` call with output size (0, 0). -/
theorem degenerate_quad_cex :
    outW (quad4of zeroQuad) ≤ 0 ∧
      transformTrace true zeroQuad = TransformStep.warp 0 0 ∧
      transformTrace true zeroQuad ≠ TransformStep.fail InnerErr.geometryError := by
  have hq : quad4of zeroQuad = ⟨⟨0, 0⟩, ⟨0, 0⟩, ⟨0, 0⟩, ⟨0, 0⟩⟩ := by
    simp [quad4of, zeroQuad]
  have hw : widthR (quad4of zeroQuad) = 0 := by
    rw [hq]; simp [widthR, distR_self]
  have hh : heightR (quad4of zeroQuad) = 0 := by
    rw [hq]; simp [heightR, distR_self]
  have hW : outW (quad4of zeroQuad) = 0 := by rw [outW, hw]; simp
  have hH : outH (quad4of zeroQuad) = 0 := by rw [outH, hh]; simp
  refine ⟨by rw [hW], ?_, ?_⟩
  · rw [transformTrace, if_neg (by decide), if_neg (by decide)]
    rw [hW, hH]
  · rw [transformTrace, if_neg (by decide), if_neg (by decide)]
    intro h
    cases h

/-- C6 (amended): `transform_image` contains no degeneracy check and the
code base defines no `GeometryError`: for every decode outcome and every
vertex list — degenerate or not — the transform never fails with the
spec's `GeometryError`; once the vertex-count and decode checks pass it
always proceeds to the warp call, whatever the computed dimensions. -/
theorem transform_never_geometry_error (d : Bool) (vs : List Pt) :
    transformTrace d vs ≠ TransformStep.fail InnerErr.geometryError := by
  rw [transformTrace]
  split
  · intro h
    exact absurd (TransformStep.fail.inj h) (by simp)
  · split
    · intro h
      exact absurd (TransformStep.fail.inj h) (by simp)
    · intro h
      cases h

/-! ## Lemmas about the ingestion pipeline -/

theorem transformImage_ok {env : Env} {b : Bytes} {vs : List Pt} {c : Bytes}
    (h : transformImage env b vs = .ok c) :
    vs.length = 4 ∧ c = env.warped b vs := by
  unfold transformImage at h
  split_ifs at h with h1 h2 h3 h4
  exact ⟨by omega, (Except.ok.inj h).symm⟩

theorem callClovaOcr_ok {env : Env} {b : Bytes} {ts : List String}
    (h : (callClovaOcr env b).2 = .ok ts) :
    callClovaOcr env b = ([b], .ok (env.ocrTexts b)) ∧ ts = env.ocrTexts b := by
  unfold callClovaOcr at h ⊢
  split_ifs at h ⊢ with h1 h2
  exact ⟨rfl, (Except.ok.inj h).symm⟩

theorem pageStep_ok {env : Env} {page : PageIn} {ov : Option (List Pt)} {c : Bytes}
    (h : pageStep env page ov = .ok c) :
    c = savedOf env (page, ov) ∧ ∀ vs, ov = some vs → vs.length = 4 := by
  unfold pageStep at h
  split_ifs at h with h1
  rcases ov with _ | vs
  · exact ⟨(Except.ok.inj h).symm, fun vs hvs => by cases hvs⟩
  · obtain ⟨hlen, hcw⟩ := transformImage_ok h
    exact ⟨by simpa [savedOf] using hcw, fun vs' hvs' => by cases hvs'; exact hlen⟩

theorem pageLoop_cons_err (env : Env) (dir : String) (page : PageIn)
    (ov : Option (List Pt)) (rest : List (PageIn × Option (List Pt))) (e : InnerErr)
    (hs : pageStep env page ov = .error e) :
    pageLoop env dir ((page, ov) :: rest) = ⟨[], [], [], [], some e⟩ := by
  simp [pageLoop, hs]

theorem pageLoop_cons_ocr_err (env : Env) (dir : String) (page : PageIn)
    (ov : Option (List Pt)) (rest : List (PageIn × Option (List Pt))) (c : Bytes) (e : InnerErr)
    (hs : pageStep env page ov = .ok c) (ho : (callClovaOcr env page.content).2 = .error e) :
    pageLoop env dir ((page, ov) :: rest) =
      ⟨[dir ++ "/" ++ page.filename], [c], [], (callClovaOcr env page.content).1, some e⟩ := by
  simp [pageLoop, hs, ho]

theorem pageLoop_cons_ok (env : Env) (dir : String) (page : PageIn)
    (ov : Option (List Pt)) (rest : List (PageIn × Option (List Pt))) (c : Bytes) (ts : List String)
    (hs : pageStep env page ov = .ok c) (ho : (callClovaOcr env page.content).2 = .ok ts) :
    pageLoop env dir ((page, ov) :: rest) =
      ⟨(dir ++ "/" ++ page.filename) :: (pageLoop env dir rest).paths,
        c :: (pageLoop env dir rest).saved, ts ++ (pageLoop env dir rest).texts,
        (callClovaOcr env page.content).1 ++ (pageLoop env dir rest).ocrCalls,
        (pageLoop env dir rest).err⟩ := by
  simp [pageLoop, hs, ho]

theorem pageLoop_ok (env : Env) (dir : String) :
    ∀ items : List (PageIn × Option (List Pt)),
      (pageLoop env dir items).err = none →
      pageLoop env dir items =
        ⟨items.map (fun it => dir ++ "/" ++ it.1.filename),
          items.map (savedOf env),
          (items.map (fun it => env.ocrTexts it.1.content)).flatten,
          items.map (fun it => it.1.content), none⟩ := by
  intro items
  induction items with
  | nil => intro _; rfl
  | cons hd rest ih =>
    obtain ⟨page, ov⟩ := hd
    intro h
    rcases hs : pageStep env page ov with e | c
    · rw [pageLoop_cons_err env dir page ov rest e hs] at h
      simp at h
    · rcases ho : (callClovaOcr env page.content).2 with e | ts
      · rw [pageLoop_cons_ocr_err env dir page ov rest c e hs ho] at h
        simp at h
      · rw [pageLoop_cons_ok env dir page ov rest c ts hs ho] at h ⊢
        have h' : (pageLoop env dir rest).err = none := h
        obtain ⟨hcall, hts⟩ := callClovaOcr_ok ho
        have h1 : (callClovaOcr env page.content).1 = [page.content] := by rw [hcall]
        obtain ⟨hcw, _⟩ := pageStep_ok hs
        have hrest := ih h'
        rw [hrest, hts, h1, hcw]
        simp

theorem pageLoop_ok_quads (env : Env) (dir : String) :
    ∀ items : List (PageIn × Option (List Pt)),
      (pageLoop env dir items).err = none →
      ∀ it ∈ items, ∀ vs, it.2 = some vs → vs.length = 4 := by
  intro items
  induction items with
  | nil => intro _ it hit; cases hit
  | cons hd rest ih =>
    obtain ⟨page, ov⟩ := hd
    intro h it hit vs hvs
    rcases hs : pageStep env page ov with e | c
    · rw [pageLoop_cons_err env dir page ov rest e hs] at h
      simp at h
    · rcases ho : (callClovaOcr env page.content).2 with e | ts
      · rw [pageLoop_cons_ocr_err env dir page ov rest c e hs ho] at h
        simp at h
      · rw [pageLoop_cons_ok env dir page ov rest c ts hs ho] at h
        have h' : (pageLoop env dir rest).err = none := h
        rcases List.mem_cons.mp hit with hh | htl
        · subst hh
          have hov : ov = some vs := hvs
          exact (pageStep_ok hs).2 vs hov
        · exact ih h' it htl vs hvs

theorem pageLoop_paths_shape (env : Env) (dir : String) :
    ∀ items : List (PageIn × Option (List Pt)),
      ∀ p ∈ (pageLoop env dir items).paths, ∃ f, p = dir ++ "/" ++ f := by
  intro items
  induction items with
  | nil => intro p hp; cases hp
  | cons hd rest ih =>
    obtain ⟨page, ov⟩ := hd
    intro p hp
    rcases hs : pageStep env page ov with e | c
    · rw [pageLoop_cons_err env dir page ov rest e hs] at hp
      simp at hp
    · rcases ho : (callClovaOcr env page.content).2 with e | ts
      · rw [pageLoop_cons_ocr_err env dir page ov rest c e hs ho] at hp
        have hp' : p ∈ [dir ++ "/" ++ page.filename] := hp
        exact ⟨page.filename, List.mem_singleton.mp hp'⟩
      · rw [pageLoop_cons_ok env dir page ov rest c ts hs ho] at hp
        have hp' : p ∈ (dir ++ "/" ++ page.filename) :: (pageLoop env dir rest).paths := hp
        rcases List.mem_cons.mp hp' with hh | htl
        · exact ⟨page.filename, hh⟩
        · exact ih p htl

theorem afterLoop_frame (env : Env) (title dir : String) (st : LoopSt) :
    (afterLoop env title dir st).tmpFiles = st.paths ∧
      (afterLoop env title dir st).removedDirs = [dir] := by
  obtain ⟨paths, saved, texts, ocrCalls, err⟩ := st
  rcases err with _ | e
  · simp only [afterLoop]
    split_ifs <;> exact ⟨by trivial, by trivial⟩
  · exact ⟨rfl, rfl⟩

theorem afterLoop_cases (env : Env) (title dir : String) (st : LoopSt) :
    (st.err = none ∧
      ((afterLoop env title dir st =
          ⟨.ok 0, [1], env.count0 + 1, [primRec title, derivRec title],
            [String.intercalate " " st.texts], st.ocrCalls, st.paths, st.saved, [dir]⟩) ∨
        (afterLoop env title dir st =
          ⟨.ok 0, [1], env.count0 + 1, [primRec title],
            [String.intercalate " " st.texts], st.ocrCalls, st.paths, st.saved, [dir]⟩))) ∨
    ((∃ e, (afterLoop env title dir st).outcome = .error (.unexpected e)) ∧
      (afterLoop env title dir st).countAfter = env.count0 ∧
      (afterLoop env title dir st).ledgerOps = [1, -1] ∧
      (afterLoop env title dir st).records = []) ∨
    (st.err = none ∧
      (afterLoop env title dir st).outcome = .error (.unexpected .pdfFailed) ∧
      (afterLoop env title dir st).countAfter = env.count0 ∧
      (afterLoop env title dir st).ledgerOps = [1, -1] ∧
      (afterLoop env title dir st).records = [primRec title]) := by
  obtain ⟨paths, saved, texts, ocrCalls, err⟩ := st
  rcases err with _ | e
  · simp only [afterLoop]
    split_ifs with h1 h2 h3 h4
    · exact Or.inr (Or.inl ⟨⟨.ttsFailed, rfl⟩, rfl, rfl, rfl⟩)
    · exact Or.inr (Or.inl ⟨⟨.insertFailed, rfl⟩, rfl, rfl, rfl⟩)
    · exact Or.inr (Or.inr ⟨by trivial, by trivial, by trivial, by trivial, by trivial⟩)
    · exact Or.inl ⟨by trivial, Or.inl (by trivial)⟩
    · exact Or.inl ⟨by trivial, Or.inr (by trivial)⟩
  · exact Or.inr (Or.inl ⟨⟨e, rfl⟩, rfl, rfl, rfl⟩)

theorem processImages_pre_or (env : Env) (sn t uid : String)
    (pages : List PageIn) (vd : List (Option (List Pt))) :
    ((∃ e, (processImages env sn t uid pages vd).outcome = Except.error e) ∧
      (processImages env sn t uid pages vd).ledgerOps = [] ∧
      (processImages env sn t uid pages vd).countAfter = env.count0 ∧
      (processImages env sn t uid pages vd).records = [] ∧
      (processImages env sn t uid pages vd).tmpFiles = [] ∧
      (processImages env sn t uid pages vd).ttsCalls = []) ∨
    processImages env sn t uid pages vd =
      afterLoop env t (uploadDir uid env.batchId)
        (pageLoop env (uploadDir uid env.batchId) (pages.zip (vdPad pages vd))) := by
  unfold processImages
  split_ifs with h1 h2 h3
  · exact Or.inl ⟨⟨_, rfl⟩, rfl, rfl, rfl, rfl, rfl⟩
  · exact Or.inl ⟨⟨_, rfl⟩, rfl, rfl, rfl, rfl, rfl⟩
  · exact Or.inl ⟨⟨_, rfl⟩, rfl, rfl, rfl, rfl, rfl⟩
  · exact Or.inr rfl

theorem mem_zip_vdPad (pages : List PageIn) (vd : List (Option (List Pt)))
    (i : Nat) (hi : i < pages.length) :
    ((pages.get ⟨i, hi⟩, vd.getD i none)) ∈ pages.zip (vdPad pages vd) := by
  have hlen : (vdPad pages vd).length = pages.length := by
    simp [vdPad]
  have hzi : i < (pages.zip (vdPad pages vd)).length := by
    simp [List.length_zip, hlen]
    omega
  have hvi : i < (vdPad pages vd).length := by omega
  have hget : (pages.zip (vdPad pages vd)).get ⟨i, hzi⟩ =
      (pages.get ⟨i, hi⟩, (vdPad pages vd).get ⟨i, hvi⟩) := by
    simp [List.get_eq_getElem, List.getElem_zip]
  have hvd : (vdPad pages vd).get ⟨i, hvi⟩ = vd.getD i none := by
    simp [vdPad, List.get_eq_getElem]
  rw [hvd] at hget
  have hmem := List.get_mem (pages.zip (vdPad pages vd)) i hzi
  rw [hget] at hmem
  exact hmem

theorem map_fst_zip_vdPad {α : Type} (pages : List PageIn)
    (vd : List (Option (List Pt))) (f : PageIn → α) :
    (pages.zip (vdPad pages vd)).map (fun it => f it.1) = pages.map f := by
  have hlen : pages.length ≤ (vdPad pages vd).length := by
    simp [vdPad]
  calc (pages.zip (vdPad pages vd)).map (fun it => f it.1)
      = ((pages.zip (vdPad pages vd)).map Prod.fst).map f := by
        rw [List.map_map]
        rfl
    _ = pages.map f := by rw [List.map_fst_zip pages (vdPad pages vd) hlen]

theorem uploadDir_inj (uid b1 b2 : String)
    (h : uploadDir uid b1 = uploadDir uid b2) : b1 = b2 := by
  unfold uploadDir at h
  have hd := congrArg String.data h
  simp only [String.data_append, List.append_assoc] at hd
  exact String.ext
    (List.append_cancel_left (List.append_cancel_left (List.append_cancel_left hd)))

theorem combineGo_success (writeOk : Nat → Bool) :
    ∀ k start written, (∀ i, i < k → writeOk (start + i) = true) →
      combineGo writeOk start k written = (true, []) := by
  intro k
  induction k with
  | zero => intro start written _; rfl
  | succ m ih =>
    intro start written h
    have h0 : writeOk start = true := by simpa using h 0 (Nat.succ_pos m)
    simp only [combineGo]
    rw [if_pos h0]
    apply ih
    intro i hi
    have heq : start + 1 + i = start + (i + 1) := by omega
    rw [heq]
    exact h (i + 1) (by omega)

/-! ## The claims about the ingestion orchestrator -/

/-- C2: the claim as stated is false — for a batch whose second-stage quad
has only 3 points, `process_images` does not fail before the Reserving
step: the quad check lives inside `transform_image`, which runs only
after `update_storage_count` has already incremented `file_count`, so the
counter is incremented and then compensatingly decremented (ledger ops
`[+1, -1]`, not "never mutated"), and the error surfaces as the generic
wrapped 500, not a pre-Reserving ValidationError. -/
theorem quad_validation_cex :
    (processImages envA "책" "t" "u" [pageA] [some quad3]).ledgerOps = [1, -1] ∧
      (processImages envA "책" "t" "u" [pageA] [some quad3]).ledgerOps ≠ [] ∧
      (processImages envA "책" "t" "u" [pageA] [some quad3]).outcome =
        Except.error (PErr.unexpected InnerErr.badQuadCount) :=
  ⟨rfl, by decide, rfl⟩

/-- C2 (amended): for every batch in which some PageInput's quad does not
have exactly 4 points, the ingest operation fails (with the generic
wrapped error, raised during per-page processing after the Reserving
increment), no file records are written, and the destination counter's
final value equals its initial value — because the compensating decrement
follows the increment (or no increment happened at all), not because the
counter was never touched. -/
theorem quad_validation_amended (env : Env) (sn t uid : String)
    (pages : List PageIn) (vd : List (Option (List Pt)))
    (i : Nat) (q : List Pt) (hi : i < pages.length)
    (hv : vd.getD i none = some q) (hq : q.length ≠ 4) :
    (∃ e, (processImages env sn t uid pages vd).outcome = Except.error e) ∧
      (processImages env sn t uid pages vd).countAfter = env.count0 ∧
      (processImages env sn t uid pages vd).records = [] := by
  have hmem := mem_zip_vdPad pages vd i hi
  rw [hv] at hmem
  rcases processImages_pre_or env sn t uid pages vd with hpre | heq
  · exact ⟨hpre.1, hpre.2.2.1, hpre.2.2.2.1⟩
  · rcases afterLoop_cases env t (uploadDir uid env.batchId)
        (pageLoop env (uploadDir uid env.batchId) (pages.zip (vdPad pages vd))) with
      ⟨hnone, _⟩ | ⟨h1, h2, _, h4⟩ | ⟨hnone, _⟩
    · exact absurd (pageLoop_ok_quads env _ _ hnone _ hmem q rfl) hq
    · obtain ⟨e, he⟩ := h1
      rw [heq]
      exact ⟨⟨_, he⟩, h2, h4⟩
    · exact absurd (pageLoop_ok_quads env _ _ hnone _ hmem q rfl) hq

theorem quad_validation_amended_witness :
    (0 < 1 ∧ [some quad3].getD 0 none = some quad3 ∧ quad3.length ≠ 4) ∧
      ((∃ e, (processImages envA "책" "t" "u" [pageA] [some quad3]).outcome =
          Except.error e) ∧
        (processImages envA "책" "t" "u" [pageA] [some quad3]).countAfter = envA.count0 ∧
        (processImages envA "책" "t" "u" [pageA] [some quad3]).records = []) :=
  ⟨⟨by decide, by decide, by decide⟩,
    quad_validation_amended envA "책" "t" "u" [pageA] [some quad3] 0 quad3
      (by decide) (by decide) (by decide)⟩

/-- C3: for every batch that fails after the Reserving increment succeeded
(there is at least one ledger operation), the destination counter's value
after the call equals its value before the call — the `except` handler's
compensating `$inc` by −1 restores the pre-batch count before the error is
surfaced. -/
theorem ledger_compensation (env : Env) (sn t uid : String)
    (pages : List PageIn) (vd : List (Option (List Pt))) (e : PErr)
    (herr : (processImages env sn t uid pages vd).outcome = Except.error e)
    (hres : (processImages env sn t uid pages vd).ledgerOps ≠ []) :
    (processImages env sn t uid pages vd).countAfter = env.count0 := by
  rcases processImages_pre_or env sn t uid pages vd with hpre | heq
  · exact hpre.2.2.1
  · rcases afterLoop_cases env t (uploadDir uid env.batchId)
        (pageLoop env (uploadDir uid env.batchId) (pages.zip (vdPad pages vd))) with
      ⟨_, hA | hA⟩ | ⟨_, h2, _⟩ | ⟨_, _, h2, _⟩
    · rw [heq, hA] at herr
      simp at herr
    · rw [heq, hA] at herr
      simp at herr
    · rw [heq]
      exact h2
    · rw [heq]
      exact h2

theorem ledger_compensation_witness :
    ((processImages envTtsFail "책" "t" "u" [pageA] []).outcome =
        Except.error (PErr.unexpected InnerErr.ttsFailed) ∧
      (processImages envTtsFail "책" "t" "u" [pageA] []).ledgerOps ≠ []) ∧
      (processImages envTtsFail "책" "t" "u" [pageA] []).countAfter = envTtsFail.count0 :=
  ⟨⟨rfl, by decide⟩,
    ledger_compensation envTtsFail "책" "t" "u" [pageA] [] _ rfl (by decide)⟩

/-- C7: after every successful batch, exactly one file record created by
the batch has `is_primary = true` (the MP3 audio record), and every other
record created by the batch (the PDF record) carries a `primary_file_id`
equal to the returned primary record's id. -/
theorem primary_derived_invariant (env : Env) (sn t uid : String)
    (pages : List PageIn) (vd : List (Option (List Pt))) (fid : Nat)
    (hok : (processImages env sn t uid pages vd).outcome = Except.ok fid) :
    ((processImages env sn t uid pages vd).records.filter
        (fun r => r.isPrimary)).length = 1 ∧
      ∀ r ∈ (processImages env sn t uid pages vd).records, r.isPrimary = false →
        r.primaryFileId = some fid ∧
          ∃ p ∈ (processImages env sn t uid pages vd).records,
            p.isPrimary = true ∧ p.id = fid := by
  rcases processImages_pre_or env sn t uid pages vd with hpre | heq
  · obtain ⟨e, he⟩ := hpre.1
    rw [he] at hok
    cases hok
  · rcases afterLoop_cases env t (uploadDir uid env.batchId)
        (pageLoop env (uploadDir uid env.batchId) (pages.zip (vdPad pages vd))) with
      ⟨_, hA | hA⟩ | ⟨⟨e, he⟩, _⟩ | ⟨_, he, _⟩
    · rw [heq, hA] at hok ⊢
      have hfid : (0 : Nat) = fid := Except.ok.inj hok
      subst hfid
      refine ⟨by simp [primRec, derivRec], ?_⟩
      intro r hr hnp
      have hr' : r ∈ [primRec t, derivRec t] := hr
      rcases List.mem_cons.mp hr' with hre | hr2
      · rw [hre] at hnp
        simp [primRec] at hnp
      · rw [List.mem_singleton.mp hr2]
        exact ⟨rfl, primRec t, List.mem_cons_self _ _, rfl, rfl⟩
    · rw [heq, hA] at hok ⊢
      have hfid : (0 : Nat) = fid := Except.ok.inj hok
      subst hfid
      refine ⟨by simp [primRec], ?_⟩
      intro r hr hnp
      have hr' : r ∈ [primRec t] := hr
      rw [List.mem_singleton.mp hr'] at hnp
      simp [primRec] at hnp
    · rw [heq] at hok
      rw [hok] at he
      cases he
    · rw [heq] at hok
      rw [hok] at he
      cases he

theorem primary_derived_invariant_witness :
    (processImages envA "책" "t" "u" [pageA] [some quad4c]).outcome = Except.ok 0 ∧
      (((processImages envA "책" "t" "u" [pageA] [some quad4c]).records.filter
          (fun r => r.isPrimary)).length = 1 ∧
        ∀ r ∈ (processImages envA "책" "t" "u" [pageA] [some quad4c]).records,
          r.isPrimary = false →
            r.primaryFileId = some 0 ∧
              ∃ p ∈ (processImages envA "책" "t" "u" [pageA] [some quad4c]).records,
                p.isPrimary = true ∧ p.id = 0) :=
  ⟨rfl, primary_derived_invariant envA "책" "t" "u" [pageA] [some quad4c] 0 rfl⟩

/-- C8: the claim as stated is false — the intermediate audio files of
`_combine_mp3_files` are not removed on every exit path: when writing the
second temporary file fails, the first one (at the fixed, batch-independent
path `/tmp/audio_combine/temp_0.mp3`) is left on disk, because the
`except` handler re-raises without any cleanup. -/
theorem tmp_artifacts_cex :
    (combineMp3Run (fun i => decide (i = 0)) 2).2 = ["/tmp/audio_combine/temp_0.mp3"] ∧
      (combineMp3Run (fun i => decide (i = 0)) 2).2 ≠ [] := by
  constructor
  · decide
  · decide

/-- C8 (amended): the uploaded page copies are written under the
batch-unique directory `/tmp/<user>/<uuid>` (distinct batch ids give
distinct directories) and that directory is recursively removed on every
exit path of `process_images`; the intermediate audio files of
`_combine_mp3_files`, however, live under the fixed shared directory
`/tmp/audio_combine` and are removed only when the whole combine step
succeeds. -/
theorem tmp_artifacts_amended (env : Env) (sn t uid b2 : String)
    (pages : List PageIn) (vd : List (Option (List Pt)))
    (writeOk : Nat → Bool) (n : Nat) :
    (uploadDir uid env.batchId = uploadDir uid b2 → env.batchId = b2) ∧
      (∀ p ∈ (processImages env sn t uid pages vd).tmpFiles,
        ∃ f, p = uploadDir uid env.batchId ++ "/" ++ f) ∧
      ((processImages env sn t uid pages vd).tmpFiles ≠ [] →
        (processImages env sn t uid pages vd).removedDirs =
          [uploadDir uid env.batchId]) ∧
      ((∀ i, i < n → writeOk i = true) → (combineMp3Run writeOk n).2 = []) := by
  refine ⟨uploadDir_inj uid env.batchId b2, ?_, ?_, ?_⟩
  · intro p hp
    rcases processImages_pre_or env sn t uid pages vd with hpre | heq
    · rw [hpre.2.2.2.2.1] at hp
      cases hp
    · rw [heq] at hp
      rw [(afterLoop_frame env t (uploadDir uid env.batchId) _).1] at hp
      exact pageLoop_paths_shape env _ _ p hp
  · intro hne
    rcases processImages_pre_or env sn t uid pages vd with hpre | heq
    · exact absurd hpre.2.2.2.2.1 hne
    · rw [heq]
      exact (afterLoop_frame env t (uploadDir uid env.batchId) _).2
  · intro hw
    have hgo := combineGo_success writeOk n 0 [] (fun i hi => by simpa using hw i hi)
    unfold combineMp3Run
    rw [hgo]

theorem tmp_artifacts_amended_witness :
    ((∀ i, i < 2 → (fun _ => true : Nat → Bool) i = true) ∧
      (combineMp3Run (fun _ => true) 2).2 = []) ∧
      ("/tmp/u/b1/a.jpg" ∈ (processImages envA "책" "t" "u" [pageA] []).tmpFiles ∧
        ∃ f, "/tmp/u/b1/a.jpg" = uploadDir "u" envA.batchId ++ "/" ++ f) :=
  ⟨⟨fun _ _ => rfl,
      (tmp_artifacts_amended envA "책" "t" "u" "b2" [pageA] [] (fun _ => true) 2).2.2.2
        (fun _ _ => rfl)⟩,
    ⟨by decide,
      (tmp_artifacts_amended envA "책" "t" "u" "b2" [pageA] [] (fun _ => true) 2).2.1
        "/tmp/u/b1/a.jpg" (by decide)⟩⟩

/-- C9: every batch that completes successfully issued exactly one TTS
request, and its text is the entire space-joined concatenation of all OCR
fragments of all pages — whatever its length: `process_images` calls
`_call_naver_tts`, which sends the whole text in a single HTTP request and
never invokes the chunking splitter `TTSUtil._split_text`. -/
theorem single_tts_call (env : Env) (sn t uid : String)
    (pages : List PageIn) (vd : List (Option (List Pt))) (fid : Nat)
    (hok : (processImages env sn t uid pages vd).outcome = Except.ok fid) :
    (processImages env sn t uid pages vd).ttsCalls =
      [String.intercalate " "
        ((pages.map (fun p => env.ocrTexts p.content)).flatten)] ∧
      (processImages env sn t uid pages vd).ttsCalls.length = 1 := by
  rcases processImages_pre_or env sn t uid pages vd with hpre | heq
  · obtain ⟨e, he⟩ := hpre.1
    rw [he] at hok
    cases hok
  · rcases afterLoop_cases env t (uploadDir uid env.batchId)
        (pageLoop env (uploadDir uid env.batchId) (pages.zip (vdPad pages vd))) with
      ⟨hnone, hA | hA⟩ | ⟨⟨e, he⟩, _⟩ | ⟨_, he, _⟩
    · have hst := pageLoop_ok env (uploadDir uid env.batchId)
        (pages.zip (vdPad pages vd)) hnone
      have htexts : (pageLoop env (uploadDir uid env.batchId)
            (pages.zip (vdPad pages vd))).texts =
          (pages.map (fun p => env.ocrTexts p.content)).flatten := by
        rw [hst]
        exact congrArg List.flatten
          (map_fst_zip_vdPad pages vd (fun p => env.ocrTexts p.content))
      rw [heq, hA]
      refine ⟨?_, rfl⟩
      show [String.intercalate " " (pageLoop env (uploadDir uid env.batchId)
          (pages.zip (vdPad pages vd))).texts] = _
      rw [htexts]
    · have hst := pageLoop_ok env (uploadDir uid env.batchId)
        (pages.zip (vdPad pages vd)) hnone
      have htexts : (pageLoop env (uploadDir uid env.batchId)
            (pages.zip (vdPad pages vd))).texts =
          (pages.map (fun p => env.ocrTexts p.content)).flatten := by
        rw [hst]
        exact congrArg List.flatten
          (map_fst_zip_vdPad pages vd (fun p => env.ocrTexts p.content))
      rw [heq, hA]
      refine ⟨?_, rfl⟩
      show [String.intercalate " " (pageLoop env (uploadDir uid env.batchId)
          (pages.zip (vdPad pages vd))).texts] = _
      rw [htexts]
    · rw [heq] at hok
      rw [hok] at he
      cases he
    · rw [heq] at hok
      rw [hok] at he
      cases he

theorem single_tts_call_witness :
    (processImages envA "책" "t" "u" [pageA] []).outcome = Except.ok 0 ∧
      ((processImages envA "책" "t" "u" [pageA] []).ttsCalls =
        [String.intercalate " "
          (([pageA].map (fun p => envA.ocrTexts p.content)).flatten)] ∧
        (processImages envA "책" "t" "u" [pageA] []).ttsCalls.length = 1) :=
  ⟨rfl, single_tts_call envA "책" "t" "u" [pageA] [] 0 rfl⟩

/-- C10: in every successful batch, the OCR requests carry exactly the
original uploaded bytes of each page in order (`_call_clova_ocr` re-reads
the upload after `file.file.seek(0)`), while the bytes written to the temp
files that feed the PDF are the rectified ones for every page that has a
quad — so the narration text is always derived from the uncorrected
originals, and the rectified bytes are used only for the PDF. -/
theorem ocr_on_originals (env : Env) (sn t uid : String)
    (pages : List PageIn) (vd : List (Option (List Pt))) (fid : Nat)
    (hok : (processImages env sn t uid pages vd).outcome = Except.ok fid) :
    (processImages env sn t uid pages vd).ocrCalls = pages.map PageIn.content ∧
      (processImages env sn t uid pages vd).saved =
        (pages.zip (vdPad pages vd)).map (savedOf env) := by
  rcases processImages_pre_or env sn t uid pages vd with hpre | heq
  · obtain ⟨e, he⟩ := hpre.1
    rw [he] at hok
    cases hok
  · rcases afterLoop_cases env t (uploadDir uid env.batchId)
        (pageLoop env (uploadDir uid env.batchId) (pages.zip (vdPad pages vd))) with
      ⟨hnone, hA | hA⟩ | ⟨⟨e, he⟩, _⟩ | ⟨_, he, _⟩
    · have hst := pageLoop_ok env (uploadDir uid env.batchId)
        (pages.zip (vdPad pages vd)) hnone
      rw [heq, hA]
      constructor
      · show (pageLoop env (uploadDir uid env.batchId)
            (pages.zip (vdPad pages vd))).ocrCalls = _
        rw [hst]
        exact map_fst_zip_vdPad pages vd PageIn.content
      · show (pageLoop env (uploadDir uid env.batchId)
            (pages.zip (vdPad pages vd))).saved = _
        rw [hst]
    · have hst := pageLoop_ok env (uploadDir uid env.batchId)
        (pages.zip (vdPad pages vd)) hnone
      rw [heq, hA]
      constructor
      · show (pageLoop env (uploadDir uid env.batchId)
            (pages.zip (vdPad pages vd))).ocrCalls = _
        rw [hst]
        exact map_fst_zip_vdPad pages vd PageIn.content
      · show (pageLoop env (uploadDir uid env.batchId)
            (pages.zip (vdPad pages vd))).saved = _
        rw [hst]
    · rw [heq] at hok
      rw [hok] at he
      cases he
    · rw [heq] at hok
      rw [hok] at he
      cases he

theorem ocr_on_originals_witness :
    ((processImages envA "책" "t" "u" [pageA] [some quad4c]).outcome = Except.ok 0 ∧
      (processImages envA "책" "t" "u" [pageA] [some quad4c]).ocrCalls = [[1, 2]] ∧
      (processImages envA "책" "t" "u" [pageA] [some quad4c]).saved = [[7, 1, 2]]) ∧
      ((processImages envA "책" "t" "u" [pageA] [some quad4c]).ocrCalls =
          [pageA].map PageIn.content ∧
        (processImages envA "책" "t" "u" [pageA] [some quad4c]).saved =
          ([pageA].zip (vdPad [pageA] [some quad4c])).map (savedOf envA)) :=
  ⟨⟨rfl, rfl, rfl⟩,
    ocr_on_originals envA "책" "t" "u" [pageA] [some quad4c] 0 rfl⟩

end Ingest
